import Mathlib

/-!
Verification of the process-lifecycle demonstration harness
(`src/assignment1.py`) against its specification.

The Python program forks children, reaps their exit statuses with blocking
waits, demonstrates zombie/orphan states, and runs a niceness/duration
experiment whose results flow back to the parent through per-pid files in
`/tmp`.  We shallowly embed the pure control logic of each task: OS
nondeterminism (which pid each blocking `os.wait()` returns) is made an
explicit parameter `arrival`, the termination-arrival sequence of the
caller's children, and the `/tmp` result files are a map from pid to an
optional file content.
-/

namespace ProcessDemo

/-- An `ExitRecord` is the `(pid, raw status)` pair returned by a blocking
`os.wait()` / `os.waitpid` call. -/
structure ExitRecord where
  pid : Nat
  status : Nat
deriving DecidableEq, Repr

/-- Python `range(a, b)` over integers, as the list `[a, a+1, ..., b-1]`
(empty when `b ≤ a`). -/
def pyRange (a b : Int) : List Int :=
  (List.range (b - a).toNat).map (fun k : Nat => a + (k : Int))

/-- Membership in `pyRange a b` is exactly `a ≤ i < b`. -/
lemma mem_pyRange {a b i : Int} : i ∈ pyRange a b ↔ a ≤ i ∧ i < b := by
  constructor
  · intro h
    obtain ⟨k, hk, rfl⟩ := List.mem_map.mp h
    have hk2 := List.mem_range.mp hk
    omega
  · intro h
    exact List.mem_map.mpr ⟨(i - a).toNat, List.mem_range.mpr (by omega), by omega⟩

/-- `cpu_work` (lines 171-176): `s = 0; for i in range(1, iterations):
s += (i * i) % (i + 1); return s`.  Python `%` with a positive divisor
agrees with `Int.emod`, which is Lean's `%` on `Int`. -/
def cpu_work (iterations : Int) : Int :=
  (pyRange 1 iterations).foldl (fun s i => s + (i * i) % (i + 1)) 0

/-- The reap loop shared by tasks 1, 2 and 5: `for _ in children:
os.wait()`.  Each blocking wait returns the next record of the
termination-arrival sequence `arrival`, so the loop collects the first
`children.length` records of `arrival`. -/
def reap_loop (children : List Nat) (arrival : List ExitRecord) : List ExitRecord :=
  arrival.take children.length

/-- `task1_create_children` (lines 22-41): fork `n` children (the parent
records pid `pidOf i` for loop index `i`; each child exits 0 immediately),
then reap once per recorded handle.  The value is the list of reaped
`ExitRecord`s. -/
def task1_create_children (n : Nat) (pidOf : Nat → Nat) (arrival : List ExitRecord) :
    List ExitRecord :=
  reap_loop ((List.range n).map pidOf) arrival

/-- Claim C1 hypothesis on the OS: every spawned child eventually
terminates and is delivered to the parent exactly once, in an arbitrary
order — i.e. the pids of the arrival sequence are a permutation of the
recorded handles. -/
def arrivalMatches (children : List Nat) (arrival : List ExitRecord) : Prop :=
  List.Perm (arrival.map (fun r => r.pid)) children

instance (children : List Nat) (arrival : List ExitRecord) :
    Decidable (arrivalMatches children arrival) :=
  inferInstanceAs (Decidable (List.Perm _ _))

/-- The pid permutation hypothesis forces the arrival sequence to have
exactly one record per child handle. -/
lemma arrivalMatches_length {children : List Nat} {arrival : List ExitRecord}
    (h : arrivalMatches children arrival) : arrival.length = children.length := by
  have := List.Perm.length_eq h
  simpa using this

/-- C1: for every `n ≥ 0`, spawning `n` children and reaping yields exactly
`n` `ExitRecord`s — one blocking wait per recorded handle — regardless of
the order in which children terminate. -/
theorem task1_reap_count (n : Nat) (pidOf : Nat → Nat) (arrival : List ExitRecord)
    (hperm : arrivalMatches ((List.range n).map pidOf) arrival) :
    (task1_create_children n pidOf arrival).length = n ∧
    (task1_create_children n pidOf arrival).length = ((List.range n).map pidOf).length := by
  have hlen : arrival.length = n := by
    have := arrivalMatches_length hperm
    simpa using this
  constructor <;>
    simp [task1_create_children, reap_loop, List.length_take, hlen]

/-- C1 witness: two children with pids 100 and 101 terminating in reversed
order still yield exactly 2 records. -/
theorem task1_reap_count_witness :
    (task1_create_children 2 (fun i => 100 + i)
      [⟨101, 0⟩, ⟨100, 0⟩]).length = 2 :=
  (task1_reap_count 2 (fun i => 100 + i) [⟨101, 0⟩, ⟨100, 0⟩] (by decide)).1

/-- C8: for every `iterations ≤ 1` (including 0 and all negatives),
`cpu_work iterations = 0`: `range(1, iterations)` is empty and the
accumulator starts at 0. -/
theorem cpu_work_le_one_eq_zero (iterations : Int) (h : iterations ≤ 1) :
    cpu_work iterations = 0 := by
  have : (iterations - 1).toNat = 0 := by omega
  simp [cpu_work, pyRange, this]

/-- C8 witness: `cpu_work (-3) = 0`. -/
theorem cpu_work_le_one_eq_zero_witness : cpu_work (-3) = 0 :=
  cpu_work_le_one_eq_zero (-3) (by norm_num)

/-- C6: `cpu_work` is a pure total function of `iterations` (it is a Lean
`def` with no effects), and for every `i` iterated by
`range(1, iterations)` the modulo divisor `i + 1` is at least 2 — in
particular never zero — so no division/modulo error can occur. -/
theorem cpu_work_divisor_safe (iterations : Int) :
    cpu_work iterations =
      (pyRange 1 iterations).foldl (fun s i => s + (i * i) % (i + 1)) 0 ∧
    ∀ i ∈ pyRange 1 iterations, 1 ≤ i ∧ 2 ≤ i + 1 ∧ i + 1 ≠ 0 := by
  refine ⟨rfl, ?_⟩
  intro i hi
  have := mem_pyRange.mp hi
  omega

/-- C6 witness: at `iterations = 3`, the iterated value `i = 2` has divisor
`3 ≥ 2`. -/
theorem cpu_work_divisor_safe_witness :
    1 ≤ (2 : Int) ∧ 2 ≤ (2 : Int) + 1 ∧ (2 : Int) + 1 ≠ 0 :=
  (cpu_work_divisor_safe 3).2 2 (by decide)

/-- Helper for `pySplit`: walk the characters, accumulating the current
word reversed in `cur`, emitting a word at each whitespace boundary. -/
def pySplitAux (cs : List Char) (cur : List Char) : List String :=
  match cs with
  | [] => if cur = [] then [] else [String.mk cur.reverse]
  | c :: rest =>
    if c.isWhitespace then
      if cur = [] then pySplitAux rest []
      else String.mk cur.reverse :: pySplitAux rest []
    else pySplitAux rest (c :: cur)

/-- Python `cmd.split()` with no argument: split on runs of whitespace and
drop the empty pieces (so `"".split() = []` and `"   ".split() = []`). -/
def pySplit (s : String) : List String :=
  pySplitAux s.toList []

/-- Outcome of the child control path in `task2_exec_children`. -/
inductive ChildResult where
  /-- `os.execvp` succeeded: the process image is replaced by `prog` and no
  further code of this program runs in the child. -/
  | replaced (prog : String) (args : List String)
  /-- The child called `os._exit code`. -/
  | exited (code : Nat)
  /-- An exception escaped the child's code uncaught (Python then prints a
  traceback and the interpreter exits abnormally). -/
  | uncaught (err : String)
deriving DecidableEq, Repr

/-- Child path of `task2_exec_children` with `use_exec=True` (lines 56-63):
`args = cmd.split(); try: os.execvp(args[0], args) except FileNotFoundError:
..., os._exit(1)`.  `progExists` models which program names `execvp` can
resolve; `args[0]` on an empty list raises `IndexError`, which the
`except FileNotFoundError` clause does not catch. -/
def task2_child_exec (cmd : String) (progExists : String → Bool) : ChildResult :=
  match pySplit cmd with
  | [] => ChildResult.uncaught "IndexError"
  | a :: rest =>
    if progExists a then ChildResult.replaced a (a :: rest)
    else ChildResult.exited 1

/-- Parent path of `task2_exec_children` (lines 50-77): fork `n` children
(recording pid `pidOf i` for loop index `i`), then `for _ in children:
os.wait()`.  The reap loop never inspects the children's statuses, so its
result depends only on the handle count and the arrival sequence. -/
def task2_exec_children (n : Nat) (pidOf : Nat → Nat) (arrival : List ExitRecord) :
    List ExitRecord :=
  reap_loop ((List.range n).map pidOf) arrival

/-- C5: with `use_exec=True` and a nonexistent target program, the child
takes the `FileNotFoundError` path and exits with status 1 — non-zero and
distinguishable from a successful replacement — and the parent still reaps
exactly one record per spawned child. -/
theorem task2_exec_missing_target (cmd : String) (progExists : String → Bool)
    (a : String) (rest : List String)
    (hsplit : pySplit cmd = a :: rest) (hmiss : progExists a = false)
    (n : Nat) (pidOf : Nat → Nat) (arrival : List ExitRecord)
    (hperm : arrivalMatches ((List.range n).map pidOf) arrival) :
    task2_child_exec cmd progExists = ChildResult.exited 1 ∧
    (1 : Nat) ≠ 0 ∧
    (∀ p args, ChildResult.exited 1 ≠ ChildResult.replaced p args) ∧
    (task2_exec_children n pidOf arrival).length = n := by
  refine ⟨?_, by omega, fun p args => by simp, ?_⟩
  · simp [task2_child_exec, hsplit, hmiss]
  · have hlen : arrival.length = n := by
      have := arrivalMatches_length hperm
      simpa using this
    simp [task2_exec_children, reap_loop, List.length_take, hlen]

/-- C5 witness: `cmd = "nosuchprog"`, no program exists, one child with pid
50 whose exit record arrives with raw status 256. -/
theorem task2_exec_missing_target_witness :
    task2_child_exec "nosuchprog" (fun _ => false) = ChildResult.exited 1 ∧
    (task2_exec_children 1 (fun i => 50 + i) [⟨50, 256⟩]).length = 1 := by
  have h := task2_exec_missing_target "nosuchprog" (fun _ => false) "nosuchprog" []
    (by decide) rfl 1 (fun i => 50 + i) [⟨50, 256⟩] (by decide)
  exact ⟨h.1, h.2.2.2⟩

/-- C10: the exec-failure handler catches only `FileNotFoundError`; a `cmd`
that splits into an empty list (empty or whitespace-only) makes `args[0]`
raise an uncaught `IndexError`, so that child never reaches the
report-and-`_exit(1)` path. -/
theorem task2_empty_cmd_uncaught :
    pySplit "" = [] ∧ pySplit "   " = [] ∧
    (∀ progExists : String → Bool,
      task2_child_exec "" progExists = ChildResult.uncaught "IndexError") ∧
    (∀ progExists : String → Bool,
      task2_child_exec "" progExists ≠ ChildResult.exited 1) :=
  ⟨by decide, by decide, fun _ => rfl, fun _ h => ChildResult.noConfusion h⟩

/-- What the parent control path of `task3_zombie_or_orphan` does after the
fork, depending on the mode string. -/
inductive ParentAct where
  /-- Zombie mode: sleep `delaySeconds`, then `os.waitpid(pid, 0)`. -/
  | sleepReap (delaySeconds : Nat)
  /-- Orphan mode: `os._exit 0` immediately, without reaping. -/
  | exitNow (code : Nat)
  /-- Unknown mode: print and `os._exit 1`. -/
  | exitUnknown (code : Nat)
deriving DecidableEq, Repr

/-- Observable shape of one run of `task3_zombie_or_orphan`. -/
structure Task3Run where
  /-- How many times `os.fork()` is called during the run. -/
  forkCalls : Nat
  /-- The status the child control path passes to `os._exit`. -/
  childExitCode : Nat
  /-- What the parent control path does after the fork. -/
  parentAct : ParentAct
deriving DecidableEq, Repr

/-- `task3_zombie_or_orphan` (lines 80-126): `os.fork()` is called
unconditionally at line 93, before the mode string is ever examined; the
child exits 0 in zombie mode, loops then exits 0 in orphan mode, and exits
1 for any other mode; the parent sleeps 15 s then reaps in zombie mode,
exits 0 immediately in orphan mode, and exits 1 for any other mode. -/
def task3_zombie_or_orphan (mode : String) : Task3Run :=
  { forkCalls := 1
    childExitCode :=
      if mode = "zombie" then 0 else if mode = "orphan" then 0 else 1
    parentAct :=
      if mode = "zombie" then ParentAct.sleepReap 15
      else if mode = "orphan" then ParentAct.exitNow 0
      else ParentAct.exitUnknown 1 }

/-- C3 counterexample: invoking `task3_zombie_or_orphan` with the invalid
mode `"bogus"` performs one fork, not zero — the unrecognized mode is not
rejected before process duplication. -/
theorem task3_invalid_mode_forks :
    ¬ ((task3_zombie_or_orphan "bogus").forkCalls = 0) := by
  decide

/-- C3 amended: for an unrecognized mode, `task3_zombie_or_orphan` still
performs exactly one fork, and only afterwards rejects the mode: both the
child and the parent control paths terminate with the non-zero status 1. -/
theorem task3_invalid_mode_rejected_after_fork (mode : String)
    (hz : mode ≠ "zombie") (ho : mode ≠ "orphan") :
    (task3_zombie_or_orphan mode).forkCalls = 1 ∧
    (task3_zombie_or_orphan mode).childExitCode = 1 ∧
    (task3_zombie_or_orphan mode).parentAct = ParentAct.exitUnknown 1 := by
  simp [task3_zombie_or_orphan, hz, ho]

/-- C3 amended witness: mode `"bogus"`. -/
theorem task3_invalid_mode_rejected_after_fork_witness :
    (task3_zombie_or_orphan "bogus").forkCalls = 1 ∧
    (task3_zombie_or_orphan "bogus").childExitCode = 1 ∧
    (task3_zombie_or_orphan "bogus").parentAct = ParentAct.exitUnknown 1 :=
  task3_invalid_mode_rejected_after_fork "bogus" (by decide) (by decide)

/-- What `main` does when `--task 4` is selected. -/
inductive MainAction where
  /-- `sys.exit code`. -/
  | exit (code : Nat)
  /-- `task4_inspect_proc pid` was called. -/
  | ranTask4 (pid : Int)
deriving DecidableEq, Repr

/-- Python truthiness of `args.pid : Option Int` (argparse leaves it `None`
when the flag is absent): `None` and `0` are falsy. -/
def pyTruthyOptInt : Option Int → Bool
  | none => false
  | some v => v ≠ 0

/-- The `--task 4` branch of `main` (lines 263-267): `if not args.pid:
print(...); sys.exit(1)` else `task4_inspect_proc(args.pid)`. -/
def main_task4_dispatch (pid : Option Int) : MainAction :=
  if pyTruthyOptInt pid then MainAction.ranTask4 (pid.getD 0)
  else MainAction.exit 1

/-- C9: `--pid 0` is treated exactly like a missing `--pid` — the guard is
a falsiness check, not a `None` check — so `main` exits with status 1 and
`task4_inspect_proc` is never reached with pid 0. -/
theorem main_task4_pid_zero_rejected :
    main_task4_dispatch (some 0) = MainAction.exit 1 ∧
    main_task4_dispatch (some 0) = main_task4_dispatch none ∧
    (∀ opt v, main_task4_dispatch opt = MainAction.ranTask4 v → v ≠ 0) := by
  refine ⟨by decide, by decide, fun opt v h => ?_⟩
  match opt with
  | none => simp [main_task4_dispatch, pyTruthyOptInt] at h
  | some w =>
    by_cases hw : w = 0
    · subst hw
      simp [main_task4_dispatch, pyTruthyOptInt] at h
    · simp [main_task4_dispatch, pyTruthyOptInt, hw] at h
      omega

/-- C9 witness: a genuinely inspectable pid through the CLI, such as 5, is
non-zero. -/
theorem main_task4_pid_zero_rejected_witness : (5 : Int) ≠ 0 :=
  main_task4_pid_zero_rejected.2.2 (some 5) 5 (by decide)

/-- An `ExperimentEntry` is the content of one child's result record in the
priority experiment: `(pid, nice offset, measured duration)`. -/
structure ExperimentEntry where
  pid : Nat
  nice : Nat
  duration : Rat
deriving DecidableEq, Repr

/-- Child body of `task5_prioritization` (lines 193-208): the child at loop
index `i` sets nice offset `i * 5`, reads the monotonic clock, runs
`cpu_work`, reads the clock again, and writes
`(pid, offset, fin - start)` to its result file. -/
def task5_child_entry (i : Nat) (pid : Nat) (start fin : Rat) : ExperimentEntry :=
  { pid := pid, nice := i * 5, duration := fin - start }

/-- The `/tmp/process_demo_child_<pid>.txt` namespace as seen by the parent
after reaping: `none` = the file is absent, `some none` = the file exists
but its content does not parse (the `except` arm printing "Malformed result
file"), `some (some e)` = the file parses to entry `e`. -/
def FileSys : Type := Nat → Option (Option ExperimentEntry)

/-- One iteration of the parent's collection loop (lines 219-232) over one
child pid, threading the accumulated `(entries, malformed reports)`: an
absent file is skipped with no action, an unparseable file appends the pid
to the malformed reports, and a parsed file appends its entry. -/
def task5_step (fs : FileSys) (acc : List ExperimentEntry × List Nat) (pid : Nat) :
    List ExperimentEntry × List Nat :=
  match fs pid with
  | none => acc
  | some none => (acc.1, acc.2 ++ [pid])
  | some (some e) => (acc.1 ++ [e], acc.2)

/-- The parent's collection loop (lines 218-232): fold `task5_step` over
the originally recorded child handles, in creation order. -/
def task5_collect (children : List Nat) (fs : FileSys) :
    List ExperimentEntry × List Nat :=
  children.foldl (task5_step fs) ([], [])

/-- The comparison key of `entries.sort(key=lambda x: x[2])` (line 234):
order entries by duration. -/
def durationLE (a b : ExperimentEntry) : Bool :=
  decide (a.duration ≤ b.duration)

/-- Line 234: Python `list.sort` is an ascending stable sort; `mergeSort`
is Lean's stable sort. -/
def task5_rank (entries : List ExperimentEntry) : List ExperimentEntry :=
  entries.mergeSort durationLE

/-- `task5_prioritization` (lines 178-238), parent view: fork `n` children
recording pids `pidOf i`, reap them all, collect the result files, and
report the entries sorted ascending by duration together with the pids
whose files were present but malformed. -/
def task5_prioritization (n : Nat) (pidOf : Nat → Nat) (fs : FileSys) :
    List ExperimentEntry × List Nat :=
  (task5_rank (task5_collect ((List.range n).map pidOf) fs).1,
   (task5_collect ((List.range n).map pidOf) fs).2)

/-- The file system state produced by the children themselves: child `i`
(for `i < n`, pid `pidOf i`) either wrote its entry — two monotonic clock
readings `startOf i ≤ finOf i` around `cpu_work` — or crashed before
writing (`wrote i = false`), leaving its file absent.  Pids not belonging
to any child have no file. -/
def task5_children_fs (n : Nat) (pidOf : Nat → Nat) (startOf finOf : Nat → Rat)
    (wrote : Nat → Bool) : FileSys :=
  fun p =>
    match (List.range n).find? (fun i => pidOf i = p) with
    | some i =>
      if wrote i then
        some (some (task5_child_entry i (pidOf i) (startOf i) (finOf i)))
      else none
    | none => none

/-- Every entry collected by the loop is either already in the accumulator
or comes from a present, parsed file of one of the visited children. -/
lemma task5_collect_entries_mem (fs : FileSys) (children : List Nat) :
    ∀ (acc : List ExperimentEntry × List Nat),
      ∀ e ∈ (children.foldl (task5_step fs) acc).1,
        e ∈ acc.1 ∨ ∃ p, p ∈ children ∧ fs p = some (some e) := by
  induction children with
  | nil => intro acc e he; exact Or.inl he
  | cons p rest ih =>
    intro acc e he
    simp only [List.foldl_cons] at he
    rcases ih (task5_step fs acc p) e he with h | ⟨q, hq, hfs⟩
    · cases hfp : fs p with
      | none =>
        simp only [task5_step, hfp] at h
        exact Or.inl h
      | some o =>
        cases o with
        | none =>
          simp only [task5_step, hfp] at h
          exact Or.inl h
        | some e2 =>
          simp only [task5_step, hfp] at h
          rcases List.mem_append.mp h with h1 | h2
          · exact Or.inl h1
          · have : e = e2 := List.mem_singleton.mp h2
            subst this
            exact Or.inr ⟨p, List.mem_cons_self p rest, hfp⟩
    · exact Or.inr ⟨q, List.mem_cons_of_mem p hq, hfs⟩

/-- The collection loop adds at most one entry per visited child. -/
lemma task5_collect_entries_length (fs : FileSys) (children : List Nat) :
    ∀ (acc : List ExperimentEntry × List Nat),
      (children.foldl (task5_step fs) acc).1.length ≤
        acc.1.length + children.length := by
  induction children with
  | nil => intro acc; simp
  | cons p rest ih =>
    intro acc
    simp only [List.foldl_cons, List.length_cons]
    have h1 := ih (task5_step fs acc p)
    have h2 : (task5_step fs acc p).1.length ≤ acc.1.length + 1 := by
      cases hfp : fs p with
      | none => simp [task5_step, hfp]
      | some o =>
        cases o with
        | none => simp [task5_step, hfp]
        | some e2 => simp [task5_step, hfp]
    omega

/-- Every pid in the malformed-report list of the loop is either already in
the accumulator or is a visited child whose file was present but did not
parse. -/
lemma task5_collect_reports_mem (fs : FileSys) (children : List Nat) :
    ∀ (acc : List ExperimentEntry × List Nat),
      ∀ p ∈ (children.foldl (task5_step fs) acc).2,
        p ∈ acc.2 ∨ (p ∈ children ∧ fs p = some none) := by
  induction children with
  | nil => intro acc p hp; exact Or.inl hp
  | cons q rest ih =>
    intro acc p hp
    simp only [List.foldl_cons] at hp
    rcases ih (task5_step fs acc q) p hp with h | ⟨hq, hfs⟩
    · cases hfq : fs q with
      | none =>
        simp only [task5_step, hfq] at h
        exact Or.inl h
      | some o =>
        cases o with
        | none =>
          simp only [task5_step, hfq] at h
          rcases List.mem_append.mp h with h1 | h2
          · exact Or.inl h1
          · have : p = q := List.mem_singleton.mp h2
            subst this
            exact Or.inr ⟨List.mem_cons_self p rest, hfq⟩
        | some e2 =>
          simp only [task5_step, hfq] at h
          exact Or.inl h
    · exact Or.inr ⟨List.mem_cons_of_mem q hq, hfs⟩

/-- Children whose file is absent contribute nothing to the loop: folding
over all children equals folding over just the children with a present
file. -/
lemma task5_collect_skips_absent (fs : FileSys) (children : List Nat) :
    ∀ (acc : List ExperimentEntry × List Nat),
      children.foldl (task5_step fs) acc =
        (children.filter (fun p => (fs p).isSome)).foldl (task5_step fs) acc := by
  induction children with
  | nil => intro acc; rfl
  | cons p rest ih =>
    intro acc
    cases hfp : fs p with
    | none =>
      have hstep : task5_step fs acc p = acc := by simp [task5_step, hfp]
      have hfilter : (p :: rest).filter (fun q => (fs q).isSome) =
          rest.filter (fun q => (fs q).isSome) :=
        List.filter_cons_of_neg (by simp [hfp])
      rw [List.foldl_cons, hstep, hfilter, ih]
    | some o =>
      have hfilter : (p :: rest).filter (fun q => (fs q).isSome) =
          p :: rest.filter (fun q => (fs q).isSome) :=
        List.filter_cons_of_pos (by simp [hfp])
      rw [List.foldl_cons, hfilter, List.foldl_cons, ih]

/-- The duration order is transitive. -/
lemma durationLE_trans :
    ∀ a b c : ExperimentEntry, durationLE a b → durationLE b c → durationLE a c := by
  intro a b c hab hbc
  simp only [durationLE, decide_eq_true_eq] at hab hbc ⊢
  exact le_trans hab hbc

/-- The duration order is total. -/
lemma durationLE_total :
    ∀ a b : ExperimentEntry, durationLE a b || durationLE b a := by
  intro a b
  simp only [durationLE, Bool.or_eq_true, decide_eq_true_eq]
  exact le_total a.duration b.duration

/-- C2: for a priority experiment with `n` children whose result files were
produced by the children themselves (each either wrote its entry between
two monotonic clock readings or crashed before writing), the reported
ranking table has at most `n` entries, every entry's duration is
non-negative, the table is sorted ascending by duration, and ties keep
their relative insertion order (stability). -/
theorem task5_ranking_table (n : Nat) (pidOf : Nat → Nat)
    (startOf finOf : Nat → Rat) (wrote : Nat → Bool)
    (hclock : ∀ i, startOf i ≤ finOf i) :
    (task5_prioritization n pidOf (task5_children_fs n pidOf startOf finOf wrote)).1.length ≤ n ∧
    (∀ e ∈ (task5_prioritization n pidOf (task5_children_fs n pidOf startOf finOf wrote)).1,
      0 ≤ e.duration) ∧
    (task5_prioritization n pidOf (task5_children_fs n pidOf startOf finOf wrote)).1.Pairwise
      (fun a b => a.duration ≤ b.duration) ∧
    (∀ a b : ExperimentEntry, a.duration = b.duration →
      List.Sublist [a, b]
        (task5_collect ((List.range n).map pidOf)
          (task5_children_fs n pidOf startOf finOf wrote)).1 →
      List.Sublist [a, b]
        (task5_prioritization n pidOf (task5_children_fs n pidOf startOf finOf wrote)).1) := by
  refine ⟨?_, ?_, ?_, ?_⟩
  · have h1 := task5_collect_entries_length
      (task5_children_fs n pidOf startOf finOf wrote) ((List.range n).map pidOf) ([], [])
    simp only [task5_prioritization, task5_rank, List.length_mergeSort, task5_collect]
    simpa [task5_collect] using h1
  · intro e he
    simp only [task5_prioritization, task5_rank, List.mem_mergeSort] at he
    rcases task5_collect_entries_mem
        (task5_children_fs n pidOf startOf finOf wrote) ((List.range n).map pidOf)
        ([], []) e he with h | ⟨p, -, hfs⟩
    · simp at h
    · unfold task5_children_fs at hfs
      cases hfind : (List.range n).find? (fun i => pidOf i = p) with
      | none => rw [hfind] at hfs; exact absurd hfs (by simp)
      | some i =>
        rw [hfind] at hfs
        by_cases hw : wrote i
        · simp only [hw, if_true, Option.some.injEq] at hfs
          have : task5_child_entry i (pidOf i) (startOf i) (finOf i) = e := by
            simpa using hfs
          subst this
          simpa [task5_child_entry] using sub_nonneg.mpr (hclock i)
        · simp [hw] at hfs
  · have h := List.sorted_mergeSort durationLE_trans durationLE_total
      (task5_collect ((List.range n).map pidOf)
        (task5_children_fs n pidOf startOf finOf wrote)).1
    simp only [task5_prioritization, task5_rank]
    exact h.imp (fun hab => by
      simpa only [durationLE, decide_eq_true_eq] using hab)
  · intro a b heq hsub
    simp only [task5_prioritization, task5_rank]
    exact List.pair_sublist_mergeSort durationLE_trans durationLE_total
      (by simp [durationLE, heq]) hsub

/-- C2 witness: two children (pids 100, 101) that both wrote, clock going
from 0 to 1, give a table of at most 2 rows. -/
theorem task5_ranking_table_witness :
    (task5_prioritization 2 (fun i => 100 + i)
      (task5_children_fs 2 (fun i => 100 + i)
        (fun _ => (0 : Rat)) (fun _ => (1 : Rat)) (fun _ => true))).1.length ≤ 2 :=
  (task5_ranking_table 2 (fun i => 100 + i)
    (fun _ => (0 : Rat)) (fun _ => (1 : Rat)) (fun _ => true)
    (fun _ => zero_le_one)).1

/-- C4 counterexample: one child with pid 100 whose result file is absent;
the parent's malformed-report list is empty — the absent record is not
reported as malformed, contradicting the claim that absent entries are
reported. -/
theorem task5_absent_not_reported :
    ¬ (100 ∈ (task5_collect [100] (fun _ => none)).2) := by
  decide

/-- C4 amended: a child handle whose result file is absent is silently
skipped: it is excluded from the ranking and aggregation of the remaining
entries continues unaffected (collecting over all children equals
collecting over just the children with a present file), but no malformed
report is emitted for it — the malformed report arises only for files that
are present and fail to parse. -/
theorem task5_absent_silently_skipped (children : List Nat) (fs : FileSys) :
    task5_collect children fs =
      task5_collect (children.filter (fun p => (fs p).isSome)) fs ∧
    (∀ p ∈ (task5_collect children fs).2, fs p = some none) ∧
    (∀ e ∈ (task5_collect children fs).1,
      ∃ p, p ∈ children ∧ fs p = some (some e)) := by
  refine ⟨task5_collect_skips_absent fs children ([], []), ?_, ?_⟩
  · intro p hp
    rcases task5_collect_reports_mem fs children ([], []) p hp with h | ⟨-, hfs⟩
    · simp at h
    · exact hfs
  · intro e he
    rcases task5_collect_entries_mem fs children ([], []) e he with h | h
    · simp at h
    · exact h

/-- C4 witness: pid 7 has a present-but-unparseable file and is reported as
malformed, so its file is indeed `some none`. -/
theorem task5_absent_silently_skipped_witness :
    (fun p => if p = 7 then some none else none : FileSys) 7 = some none :=
  (task5_absent_silently_skipped [7]
    (fun p => if p = 7 then some none else none)).2.1 7 (by decide)

/-- C7: the child at sibling index `i` is assigned priority offset `i * 5`
(the fixed step is `k = 5`; offsets are `0, 5, 10, ...`, monotone across
siblings, and index 0 receives no change), and the entry written by a child
has non-negative duration whenever the clock readings around `cpu_work` are
monotone. -/
theorem task5_child_offsets_and_duration (i j pid : Nat) (start fin : Rat)
    (hij : i ≤ j) (hclock : start ≤ fin) :
    (task5_child_entry i pid start fin).nice = i * 5 ∧
    (task5_child_entry 0 pid start fin).nice = 0 ∧
    (task5_child_entry i pid start fin).nice ≤ (task5_child_entry j pid start fin).nice ∧
    0 ≤ (task5_child_entry i pid start fin).duration := by
  refine ⟨rfl, rfl, ?_, ?_⟩
  · simp only [task5_child_entry]
    omega
  · simpa [task5_child_entry] using sub_nonneg.mpr hclock

/-- C7 witness: indices 1 ≤ 2, clock from 0 to 1: offset `5 ≤ 10` and the
duration of the written entry is non-negative. -/
theorem task5_child_offsets_and_duration_witness :
    0 ≤ (task5_child_entry 1 7 (0 : Rat) (1 : Rat)).duration :=
  (task5_child_offsets_and_duration 1 2 7 (0 : Rat) (1 : Rat)
    (by decide) zero_le_one).2.2.2

end ProcessDemo
